import Mathlib

/-!
Verification of the pick'em backend's reconciliation-and-scoring core.

The JavaScript source is shallowly embedded: a JS string is modelled as its
list of UTF-16 code units (`JStr := List Nat`), JS integer scores as `Int`,
and point spreads (floats in half-point increments, whose arithmetic here is
exact) as `Rat`.  Each definition mirrors one function of the source:

* `normalizeName`            — server.js `normalizeName` (lines 510-516)
* `verifyNormalizeScores`    — server.js `verifyNormalizeScores` (545-596)
* `calculateTotalWinners`    — server.js `calculateTotalWinners` (599-651)
* `playerResults`, `updateTotals` — server.js `calculateWinnersFromList` (653-689)
* `submitPicks`              — server.js POST submit-picks routes (995-1064)
* `pickCorrect`              — the older server variant's `calculateWinners`
                               pick evaluation (unnamed/part_001, 244-263)

File I/O, HTTP plumbing and spreadsheet parsing are external collaborators;
the embedded functions take the parsed lists as arguments and return the
values the source writes back.
-/

/-- A JavaScript string, as its list of UTF-16 code units. -/
abbrev JStr := List Nat

/-- Embed a Lean string literal as a `JStr` (all examples use ASCII). -/
def jstr (s : String) : JStr := s.data.map (fun c => c.toNat)

/-- True for the code of an ASCII letter or digit, the class kept by the
regex `[^a-zA-Z0-9]` replacement in `normalizeName`. -/
def isAlnumCode (n : Nat) : Bool :=
  decide ((48 ≤ n ∧ n ≤ 57) ∨ (65 ≤ n ∧ n ≤ 90) ∨ (97 ≤ n ∧ n ≤ 122))

/-- ASCII lowercasing of one code unit, as JS `toLowerCase` acts on the
ASCII range (the only range reachable after the alphanumeric filter). -/
def lowerCode (n : Nat) : Nat :=
  if 65 ≤ n ∧ n ≤ 90 then n + 32 else n

/-- Lowercase every code unit of a string. -/
def lowerStr (l : JStr) : JStr := l.map lowerCode

/-- Code units of the literal suffix "state", reversed (e,t,a,t,s). -/
def stateSuffixRev : JStr := [101, 116, 97, 116, 115]

/-- Whether the string ends with "state" case-insensitively, the test of
the regex `/state$/i` in `normalizeName`. -/
def endsWithState (l : JStr) : Bool :=
  decide ((l.reverse.map lowerCode).take 5 = stateSuffixRev)

/-- JS `replace(/state$/i, 'st')`: drop a trailing case-insensitive
"state" and append the two code units of "st"; otherwise identity. -/
def replaceStateSuffix (l : JStr) : JStr :=
  if endsWithState l then (l.reverse.drop 5).reverse ++ [115, 116] else l

/-- server.js `normalizeName`: strip non-alphanumerics, collapse a trailing
"state" (case-insensitive) to "st", then lowercase. -/
def normalizeName (s : JStr) : JStr :=
  lowerStr (replaceStateSuffix (s.filter isAlnumCode))

lemma lowerCode_idem (n : Nat) : lowerCode (lowerCode n) = lowerCode n := by
  unfold lowerCode
  split_ifs <;> omega

lemma lowerStr_idem (l : JStr) : lowerStr (lowerStr l) = lowerStr l := by
  induction l with
  | nil => rfl
  | cons a t ih =>
      simp only [lowerStr, List.map] at ih ⊢
      rw [lowerCode_idem, ih]

lemma isAlnumCode_lowerCode {n : Nat} (h : isAlnumCode n = true) :
    isAlnumCode (lowerCode n) = true := by
  simp only [isAlnumCode, lowerCode, decide_eq_true_eq] at h ⊢
  split_ifs <;> omega

lemma mem_replaceStateSuffix {m : Nat} {l : JStr}
    (h : m ∈ replaceStateSuffix l) : m ∈ l ∨ m = 115 ∨ m = 116 := by
  unfold replaceStateSuffix at h
  split_ifs at h with hs
  · rcases List.mem_append.mp h with h1 | h2
    · left
      have := List.mem_reverse.mp h1
      have := List.mem_of_mem_drop this
      exact List.mem_reverse.mp this
    · right
      simp only [List.mem_cons, List.not_mem_nil, or_false] at h2
      exact h2
  · exact Or.inl h

lemma mem_normalizeName_alnum {m : Nat} {s : JStr}
    (h : m ∈ normalizeName s) : isAlnumCode m = true := by
  unfold normalizeName lowerStr at h
  rcases List.mem_map.mp h with ⟨a, ha, rfl⟩
  rcases mem_replaceStateSuffix ha with h1 | h2 | h3
  · exact isAlnumCode_lowerCode (List.of_mem_filter h1)
  · subst h2; rfl
  · subst h3; rfl

lemma filter_normalizeName (s : JStr) :
    (normalizeName s).filter isAlnumCode = normalizeName s :=
  List.filter_eq_self.mpr (fun _ hm => mem_normalizeName_alnum hm)

lemma map_lowerCode_reverse_lowerStr (l : JStr) :
    (lowerStr l).reverse.map lowerCode = l.reverse.map lowerCode := by
  simp only [lowerStr]
  rw [← List.map_reverse, List.map_map]
  exact List.map_congr_left (fun a _ => lowerCode_idem a)

lemma endsWithState_lowerStr (l : JStr) :
    endsWithState (lowerStr l) = endsWithState l := by
  unfold endsWithState
  rw [map_lowerCode_reverse_lowerStr]

lemma endsWithState_append_st (t : JStr) :
    endsWithState (t ++ [115, 116]) = false := by
  apply decide_eq_false
  intro h
  rw [List.reverse_append] at h
  simp [stateSuffixRev, lowerCode] at h

lemma endsWithState_normalizeName (s : JStr) :
    endsWithState (normalizeName s) = false := by
  unfold normalizeName
  rw [endsWithState_lowerStr]
  unfold replaceStateSuffix
  split_ifs with hs
  · exact endsWithState_append_st _
  · exact Bool.eq_false_iff.mpr hs

lemma replaceStateSuffix_normalizeName (s : JStr) :
    replaceStateSuffix (normalizeName s) = normalizeName s := by
  unfold replaceStateSuffix
  rw [endsWithState_normalizeName]
  simp

lemma lowerStr_normalizeName (s : JStr) :
    lowerStr (normalizeName s) = normalizeName s := by
  unfold normalizeName
  rw [lowerStr_idem]

/-- C5: the team-name normalizer (strip non-alphanumerics, collapse a
trailing case-insensitive "state" to "st", lowercase) is a pure total
function and is idempotent; the two sample names of the spec normalize to
"ohiost". -/
theorem normalizeName_idempotent :
    (∀ s : JStr, normalizeName (normalizeName s) = normalizeName s) ∧
    normalizeName (jstr ("Ohio State")) = jstr ("ohiost") ∧
    normalizeName (jstr ("Ohio St.")) = jstr ("ohiost") := by
  refine ⟨fun s => ?_, by decide, by decide⟩
  conv_lhs => rw [normalizeName]
  rw [filter_normalizeName, replaceStateSuffix_normalizeName,
    lowerStr_normalizeName]

/-- One scheduled game with its betting line (a games_week_X.json row). -/
structure SpreadRecord where
  team1 : JStr
  spread1 : Rat
  team2 : JStr
  spread2 : Rat

/-- One raw final-score report (a scores upload row, teams in either
order); also the shape of the rows of scores_week_X.json. -/
structure ScoreRecord where
  date : JStr
  team1 : JStr
  score1 : Int
  team2 : JStr
  score2 : Int
deriving DecidableEq

/-- The Matcher's reoriented output row. -/
structure OrderedScore where
  date : JStr
  team1 : JStr
  score1 : Int
  team2 : JStr
  score2 : Int
deriving DecidableEq

/-- Code units JS `trim` strips at the ends of a string (ASCII range). -/
def isSpaceCode (n : Nat) : Bool :=
  decide (n = 32 ∨ n = 9 ∨ n = 10 ∨ n = 11 ∨ n = 12 ∨ n = 13)

/-- JS `String.prototype.trim`. -/
def trimStr (l : JStr) : JStr :=
  ((l.dropWhile isSpaceCode).reverse.dropWhile isSpaceCode).reverse

/-- The parsed contents of team_name_map.json. -/
abbrev TeamMap := List (JStr × JStr)

/-- JS object property read `map[name]`. -/
def mapLookup (m : TeamMap) (k : JStr) : Option JStr :=
  (m.find? (fun p => p.1 == k)).map (fun p => p.2)

/-- JS `a || b` where a missing or empty-string value falls through. -/
def jsOrStr (a : Option JStr) (b : JStr) : JStr :=
  match a with
  | some v => if v = [] then b else v
  | none => b

/-- server.js `mapToMascot` (528-532): translate a short name through the
team-name map, trying the raw then the trimmed key, else keep the name. -/
def mapToMascot (name : JStr) (m : TeamMap) : JStr :=
  if name = [] then []
  else jsOrStr (mapLookup m name) (jsOrStr (mapLookup m (trimStr name)) name)

/-- server.js `sameTeam` (534-536). -/
def sameTeam (a b : JStr) : Bool :=
  normalizeName a == normalizeName b

/-- The `findIndex` predicate of `verifyNormalizeScores` (561-565):
unordered normalized team-pair equality after mascot translation. -/
def scoreMatchesGame (m : TeamMap) (g : SpreadRecord) (s : ScoreRecord) : Bool :=
  let s1 := mapToMascot s.team1 m
  let s2 := mapToMascot s.team2 m
  (sameTeam s1 g.team1 && sameTeam s2 g.team2) ||
    (sameTeam s1 g.team2 && sameTeam s2 g.team1)

/-- JS `findIndex` plus the subsequent element access: the first element
satisfying `p`, with its index (counting from `n`). -/
def findPair (p : α → Bool) : List α → Nat → Option (Nat × α)
  | [], _ => none
  | x :: xs, n => if p x then some (n, x) else findPair p xs (n + 1)

/-- The separator of the report strings, `" vs "`. -/
def vsStr : JStr := jstr (" vs ")

/-- The swap test of `verifyNormalizeScores` (577). -/
def needsSwap (m : TeamMap) (g : SpreadRecord) (s : ScoreRecord) : Bool :=
  sameTeam (mapToMascot s.team1 m) g.team2 &&
    sameTeam (mapToMascot s.team2 m) g.team1

/-- The ordered row `verifyNormalizeScores` pushes for a matched game
(580-586): the game's team labels with the scores flipped if needed. -/
def orientScore (m : TeamMap) (g : SpreadRecord) (s : ScoreRecord) : OrderedScore :=
  { date := s.date
    team1 := g.team1
    score1 := if needsSwap m g s then s.score2 else s.score1
    team2 := g.team2
    score2 := if needsSwap m g s then s.score1 else s.score2 }

/-- State threaded through the game loop of `verifyNormalizeScores`. -/
structure VerifyPass where
  ordered : List OrderedScore
  unmatchedGames : List JStr
  used : List Nat
  matched : Nat
  swapped : Nat
deriving DecidableEq

/-- The per-game loop of `verifyNormalizeScores` (558-588). -/
def verifyLoop (m : TeamMap) (scores : List ScoreRecord) :
    List SpreadRecord → VerifyPass
  | [] => ⟨[], [], [], 0, 0⟩
  | g :: rest =>
    let r := verifyLoop m scores rest
    match findPair (scoreMatchesGame m g) scores 0 with
    | none =>
        ⟨r.ordered, (g.team1 ++ vsStr ++ g.team2) :: r.unmatchedGames,
          r.used, r.matched, r.swapped⟩
    | some (i, s) =>
        ⟨orientScore m g s :: r.ordered, r.unmatchedGames, i :: r.used,
          r.matched + 1, r.swapped + (if needsSwap m g s then 1 else 0)⟩

/-- The result record of `verifyNormalizeScores`: the ordered rows plus
the report (matched/swapped counters, dropped scores, unmatched games). -/
structure VerifyResult where
  ordered : List OrderedScore
  matched : Nat
  swapped : Nat
  dropped : List JStr
  unmatchedGames : List JStr
deriving DecidableEq

/-- server.js `verifyNormalizeScores` (545-596), with the games list and
the team map passed in place of the file reads. -/
def verifyNormalizeScores (m : TeamMap) (games : List SpreadRecord)
    (scores : List ScoreRecord) : VerifyResult :=
  let r := verifyLoop m scores games
  { ordered := r.ordered
    matched := r.matched
    swapped := r.swapped
    dropped := (scores.enum.filter (fun p => !(r.used.contains p.1))).map
      (fun p => p.2.team1 ++ vsStr ++ p.2.team2)
    unmatchedGames := r.unmatchedGames }

/-- A row of winners_detail_week_X.json (639-643). -/
structure DetailRecord where
  team1 : JStr
  spread1 : Rat
  score1 : Int
  team2 : JStr
  spread2 : Rat
  score2 : Int
  winner : JStr

/-- The push sentinel string. -/
def pushName : JStr := jstr ("PUSH")

/-- The `find` predicate of `calculateTotalWinners` (620-624): unordered
normalized team-pair equality, with no mascot translation. -/
def scoreMatchesGamePlain (g : SpreadRecord) (s : ScoreRecord) : Bool :=
  let s1 := normalizeName s.team1
  let s2 := normalizeName s.team2
  (s1 == normalizeName g.team1 && s2 == normalizeName g.team2) ||
    (s1 == normalizeName g.team2 && s2 == normalizeName g.team1)

/-- The per-game loop of `calculateTotalWinners` (616-646), returning the
detail rows and the flat declared-winners list. -/
def winnersLoop (scores : List ScoreRecord) :
    List SpreadRecord → List DetailRecord × List JStr
  | [] => ([], [])
  | game :: rest =>
    let r := winnersLoop scores rest
    match scores.find? (scoreMatchesGamePlain game) with
    | none => r
    | some mt =>
      let adjusted1 : Rat := (mt.score1 : Rat) + game.spread1
      let raw2 : Rat := (mt.score2 : Rat)
      let winner : JStr :=
        if adjusted1 > raw2 then game.team1
        else if adjusted1 < raw2 then game.team2
        else pushName
      (⟨game.team1, game.spread1, mt.score1, game.team2, game.spread2,
          mt.score2, winner⟩ :: r.1,
        (if winner ≠ pushName then winner :: r.2 else r.2))

/-- server.js `calculateTotalWinners` (599-651), with the two file reads
passed as arguments and the two written files as the result. -/
def calculateTotalWinners (games : List SpreadRecord)
    (scores : List ScoreRecord) : List DetailRecord × List JStr :=
  winnersLoop scores games

lemma winnersLoop_winner_formula (scores : List ScoreRecord)
    (games : List SpreadRecord) :
    ((winnersLoop scores games).1.map (fun d => d.winner)) =
      ((winnersLoop scores games).1.map (fun d =>
        if (d.score1 : Rat) + d.spread1 > (d.score2 : Rat) then d.team1
        else if (d.score1 : Rat) + d.spread1 < (d.score2 : Rat) then d.team2
        else pushName)) := by
  induction games with
  | nil => rfl
  | cons game rest ih =>
      cases hf : scores.find? (scoreMatchesGamePlain game) with
      | none => simpa [winnersLoop, hf] using ih
      | some mt => simp [winnersLoop, hf, ih]

lemma winnersLoop_declared (scores : List ScoreRecord)
    (games : List SpreadRecord) :
    (winnersLoop scores games).2 =
      ((winnersLoop scores games).1.filter
        (fun d => d.winner ≠ pushName)).map (fun d => d.winner) := by
  induction games with
  | nil => rfl
  | cons game rest ih =>
      cases hf : scores.find? (scoreMatchesGamePlain game) with
      | none => simpa [winnersLoop, hf] using ih
      | some mt =>
          simp only [winnersLoop, hf, ih, List.filter_cons]
          split_ifs <;> simp_all

lemma scoreMatchesGamePlain_spread2 (f : Rat → Rat) (g : SpreadRecord) :
    scoreMatchesGamePlain ⟨g.team1, g.spread1, g.team2, f g.spread2⟩ =
      scoreMatchesGamePlain g := rfl

lemma winnersLoop_spread2_frame (scores : List ScoreRecord) (f : Rat → Rat)
    (games : List SpreadRecord) :
    ((winnersLoop scores (games.map (fun g =>
        ⟨g.team1, g.spread1, g.team2, f g.spread2⟩))).1.map
          (fun d => d.winner) =
      (winnersLoop scores games).1.map (fun d => d.winner)) ∧
    (winnersLoop scores (games.map (fun g =>
        ⟨g.team1, g.spread1, g.team2, f g.spread2⟩))).2 =
      (winnersLoop scores games).2 := by
  induction games with
  | nil => exact ⟨rfl, rfl⟩
  | cons game rest ih =>
      cases hf : scores.find? (scoreMatchesGamePlain game) with
      | none =>
          constructor
          · simpa [winnersLoop, scoreMatchesGamePlain_spread2, hf]
              using ih.1
          · simpa [winnersLoop, scoreMatchesGamePlain_spread2, hf]
              using ih.2
      | some mt =>
          constructor
          · simp only [winnersLoop, List.map_cons, scoreMatchesGamePlain_spread2,
              hf, List.map_map]
            rw [ih.1]
          · simp only [winnersLoop, List.map_cons, scoreMatchesGamePlain_spread2,
              hf, List.map_map]
            rw [ih.2]

/-- C1: every detail row's declared winner equals the comparison of
`score1 + spread1` against the raw `score2` (team1 if greater, team2 if
smaller, the PUSH sentinel if exactly equal); rewriting every game's
`spread2` arbitrarily changes no declared winner, so `spread2` is never
applied; and the flat declared-winners list is exactly the winners of the
non-PUSH detail rows. -/
theorem calculateTotalWinners_winner_rule (games : List SpreadRecord)
    (scores : List ScoreRecord) :
    ((calculateTotalWinners games scores).1.map (fun d => d.winner) =
      (calculateTotalWinners games scores).1.map (fun d =>
        if (d.score1 : Rat) + d.spread1 > (d.score2 : Rat) then d.team1
        else if (d.score1 : Rat) + d.spread1 < (d.score2 : Rat) then d.team2
        else pushName)) ∧
    (∀ f : Rat → Rat,
      (calculateTotalWinners (games.map (fun g =>
          ⟨g.team1, g.spread1, g.team2, f g.spread2⟩)) scores).2 =
        (calculateTotalWinners games scores).2) ∧
    (calculateTotalWinners games scores).2 =
      ((calculateTotalWinners games scores).1.filter
        (fun d => d.winner ≠ pushName)).map (fun d => d.winner) :=
  ⟨winnersLoop_winner_formula scores games,
    fun f => (winnersLoop_spread2_frame scores f games).2,
    winnersLoop_declared scores games⟩

/-- One stored pick of a picks_week_X.json entry. -/
structure StoredPick where
  gameIndex : Int
  pick : JStr
deriving DecidableEq

/-- One entry of picks_week_X.json, as the submit routes store it
(1057). -/
structure PickFileEntry where
  player : JStr
  pin : JStr
  picks : List StoredPick
  week : Nat
  submittedAt : JStr
deriving DecidableEq

/-- Per-player result row of winners_week_X.json (667-671). -/
structure PlayerResult where
  player : JStr
  correct : List JStr
  total : Nat
deriving DecidableEq

/-- The per-player mapping of `calculateWinnersFromList` (667-672): the
trimmed picked names that are members of the declared-winners list. -/
def playerResult (winnersList : List JStr) (p : PickFileEntry) : PlayerResult :=
  let correct :=
    (p.picks.map (fun pk => trimStr pk.pick)).filter
      (fun s => winnersList.contains s)
  ⟨p.player, correct, correct.length⟩

/-- The results list written to winners_week_X.json (667-672). -/
def playerResults (winnersList : List JStr)
    (picksData : List PickFileEntry) : List PlayerResult :=
  picksData.map (playerResult winnersList)

/-- The totals.json mapping, as a total function; a key the JS object
lacks reads 0 via `existingTotals[name] || 0`. -/
abbrev Totals := JStr → Int

/-- The totals update loop of `calculateWinnersFromList` (683-686). -/
def updateTotals (t : Totals) (results : List PlayerResult) : Totals :=
  results.foldl
    (fun acc r => fun n =>
      if n = trimStr r.player then acc n + (r.total : Int) else acc n) t

/-- server.js `calculateWinnersFromList` (653-689): the written results
file and the updated totals mapping. -/
def calculateWinnersFromList (t : Totals) (picksData : List PickFileEntry)
    (winnersList : List JStr) : List PlayerResult × Totals :=
  let results := playerResults winnersList picksData
  (results, updateTotals t results)

/-- The weekly correct-pick contribution of the entries whose trimmed
player name is `nm`. -/
def weekTotal (picksData : List PickFileEntry) (winnersList : List JStr)
    (nm : JStr) : Int :=
  (((playerResults winnersList picksData).filter
      (fun r => trimStr r.player = nm)).map (fun r => (r.total : Int))).sum

lemma updateTotals_apply (results : List PlayerResult) (t : Totals)
    (nm : JStr) :
    updateTotals t results nm =
      t nm + ((results.filter (fun r => trimStr r.player = nm)).map
        (fun r => (r.total : Int))).sum := by
  induction results generalizing t with
  | nil => simp [updateTotals]
  | cons r rs ih =>
      simp only [updateTotals, List.foldl_cons] at ih ⊢
      rw [ih, List.filter_cons]
      by_cases h : trimStr r.player = nm
      · subst h
        simp
        ring
      · have h2 : ¬(nm = trimStr r.player) := fun hc => h hc.symm
        simp [h, h2]

/-- C2: the standings accumulation is additive per calculation run, not
idempotent: one run adds the player's weekly correct-pick contribution to
the stored total, and a second run on identical inputs without an external
reset adds it again, leaving the prior total plus twice the weekly count
rather than a stable value. -/
theorem calculateWinnersFromList_double_counts (t : Totals)
    (picksData : List PickFileEntry) (winnersList : List JStr) (nm : JStr) :
    (calculateWinnersFromList t picksData winnersList).2 nm =
      t nm + weekTotal picksData winnersList nm ∧
    (calculateWinnersFromList
        ((calculateWinnersFromList t picksData winnersList).2)
        picksData winnersList).2 nm =
      t nm + 2 * weekTotal picksData winnersList nm := by
  constructor
  · exact updateTotals_apply _ _ _
  · show updateTotals (updateTotals t _) _ nm = _
    rw [updateTotals_apply, updateTotals_apply]
    show t nm + weekTotal picksData winnersList nm +
        weekTotal picksData winnersList nm = _
    ring

/-- C10: the player-scoring stage touches the totals mapping only at the
trimmed player names of the week's pick entries; any other key reads
exactly its prior value after the run. -/
theorem calculateWinnersFromList_frame (t : Totals)
    (picksData : List PickFileEntry) (winnersList : List JStr) (nm : JStr)
    (h : nm ∉ picksData.map (fun p => trimStr p.player)) :
    (calculateWinnersFromList t picksData winnersList).2 nm = t nm := by
  show updateTotals t (playerResults winnersList picksData) nm = t nm
  rw [updateTotals_apply]
  have hf : (playerResults winnersList picksData).filter
      (fun r => trimStr r.player = nm) = [] := by
    rw [List.filter_eq_nil_iff]
    intro r hr
    rcases List.mem_map.mp hr with ⟨p, hp, rfl⟩
    intro hc
    exact h (List.mem_map.mpr ⟨p, hp, by simpa using hc⟩)
  rw [hf]
  simp

/-- Witness for C10 at a concrete input: a totals map, one pick entry for
player "Bob", and the unrelated key "Alice", whose total is unchanged. -/
theorem calculateWinnersFromList_frame_witness :
    (jstr ("Alice")) ∉
      ([(⟨jstr ("Bob"), jstr ("1234"), [⟨0, jstr ("Ohio State")⟩], 3,
          jstr ("t")⟩ : PickFileEntry)]).map (fun p => trimStr p.player) ∧
    (calculateWinnersFromList (fun n => if n = jstr ("Alice") then 7 else 0)
        [⟨jstr ("Bob"), jstr ("1234"), [⟨0, jstr ("Ohio State")⟩], 3,
          jstr ("t")⟩]
        [jstr ("Ohio State")]).2 (jstr ("Alice")) =
      (fun n => if n = jstr ("Alice") then (7 : Int) else 0)
        (jstr ("Alice")) :=
  ⟨by decide,
    calculateWinnersFromList_frame _ _ _ _ (by decide)⟩

/-- C4: a pick is counted correct exactly when its trimmed picked-team
string is a member of the declared-winners list; the result row carries
the player name and the count of member picks; the count is invariant
under arbitrary rewriting of every pick's gameIndex (no game-index
cross-reference); and at the spec's concrete input (winners list
["Ohio State"], picks for games 0 and 1 with game 1 undeclared) the total
is 1. -/
theorem playerResult_membership (winnersList : List JStr)
    (p : PickFileEntry) :
    ((playerResult winnersList p).total =
      (p.picks.filter
        (fun pk => winnersList.contains (trimStr pk.pick))).length) ∧
    (playerResult winnersList p).player = p.player ∧
    (∀ f : Int → Int,
      playerResult winnersList
        ⟨p.player, p.pin,
          p.picks.map (fun pk => ⟨f pk.gameIndex, pk.pick⟩),
          p.week, p.submittedAt⟩ =
        playerResult winnersList p) ∧
    (playerResult [jstr ("Ohio State")]
        ⟨jstr ("P1"), jstr ("1234"),
          [⟨0, jstr ("Ohio State")⟩, ⟨1, jstr ("Michigan")⟩], 1,
          jstr ("t")⟩).total = 1 := by
  refine ⟨?_, rfl, fun f => ?_, by decide⟩
  · show ((p.picks.map (fun pk => trimStr pk.pick)).filter
        (fun s => winnersList.contains s)).length = _
    rw [List.filter_map]
    rw [List.length_map]
    rfl
  · show playerResult winnersList _ = _
    unfold playerResult
    rw [List.map_map]
    rfl

lemma mapToMascot_nil (name : JStr) : mapToMascot name [] = name := by
  unfold mapToMascot mapLookup jsOrStr
  simp only [List.find?_nil, Option.map_none]
  split_ifs with h
  · exact h.symm
  · rfl

lemma findPair_eq_none {p : α → Bool} {l : List α}
    (h : ∀ x ∈ l, p x = false) : ∀ n, findPair p l n = none := by
  induction l with
  | nil => intro n; rfl
  | cons a t ih =>
      intro n
      unfold findPair
      rw [h a (List.mem_cons_self a t)]
      simp only [Bool.false_eq_true, if_false]
      exact ih (fun x hx => h x (List.mem_cons_of_mem a hx)) (n + 1)

lemma findPair_spec {p : α → Bool} :
    ∀ (l : List α) (n i : Nat) (x : α), findPair p l n = some (i, x) →
      n ≤ i ∧ l.get? (i - n) = some x ∧ p x = true ∧
        ∀ j, j < i - n → ∀ y, l.get? j = some y → p y = false := by
  intro l
  induction l with
  | nil => intro n i x h; exact absurd h (by simp [findPair])
  | cons a t ih =>
      intro n i x h
      unfold findPair at h
      by_cases hp : p a = true
      · rw [hp] at h
        simp only [if_true] at h
        rcases Prod.mk.injEq .. ▸ Option.some.injEq .. ▸ h with h'
        have hin : n = i ∧ a = x := by
          have := Option.some.inj h
          exact ⟨(Prod.mk.inj this).1, (Prod.mk.inj this).2⟩
        rcases hin with ⟨rfl, rfl⟩
        refine ⟨Nat.le_refl n, ?_, hp, ?_⟩
        · simp [Nat.sub_self]
        · intro j hj
          omega
      · rw [Bool.not_eq_true] at hp
        rw [hp] at h
        simp only [Bool.false_eq_true, if_false] at h
        rcases ih (n + 1) i x h with ⟨hle, hget, hpx, hmin⟩
        refine ⟨by omega, ?_, hpx, ?_⟩
        · have : i - n = (i - (n + 1)) + 1 := by omega
          rw [this]
          simpa using hget
        · intro j hj y hy
          cases j with
          | zero =>
              simp only [List.get?] at hy
              cases hy
              exact hp
          | succ k =>
              have hk : k < i - (n + 1) := by omega
              exact hmin k hk y (by simpa using hy)

lemma verifyLoop_append (m : TeamMap) (scores : List ScoreRecord)
    (l1 l2 : List SpreadRecord) :
    verifyLoop m scores (l1 ++ l2) =
      ⟨(verifyLoop m scores l1).ordered ++ (verifyLoop m scores l2).ordered,
        (verifyLoop m scores l1).unmatchedGames ++
          (verifyLoop m scores l2).unmatchedGames,
        (verifyLoop m scores l1).used ++ (verifyLoop m scores l2).used,
        (verifyLoop m scores l1).matched + (verifyLoop m scores l2).matched,
        (verifyLoop m scores l1).swapped + (verifyLoop m scores l2).swapped⟩ := by
  induction l1 with
  | nil => simp [verifyLoop]
  | cons g rest ih =>
      cases hf : findPair (scoreMatchesGame m g) scores 0 with
      | none =>
          simp [List.cons_append, verifyLoop, hf, List.append_eq, ih,
            VerifyPass.mk.injEq]
      | some pair =>
          cases pair with
          | mk i s =>
              simp [List.cons_append, verifyLoop, hf, List.append_eq,
                ih, VerifyPass.mk.injEq]
              omega

lemma winnersLoop_append (scores : List ScoreRecord)
    (l1 l2 : List SpreadRecord) :
    winnersLoop scores (l1 ++ l2) =
      ((winnersLoop scores l1).1 ++ (winnersLoop scores l2).1,
        (winnersLoop scores l1).2 ++ (winnersLoop scores l2).2) := by
  induction l1 with
  | nil => simp [winnersLoop]
  | cons g rest ih =>
      cases hf : scores.find? (scoreMatchesGamePlain g) with
      | none => simp [winnersLoop, hf, List.append_eq, ih]
      | some mt =>
          simp [List.cons_append, winnersLoop, hf, List.append_eq, ih,
            Prod.mk.injEq]
          split_ifs <;> simp

lemma verifyLoop_single_none (m : TeamMap) (scores : List ScoreRecord)
    (g : SpreadRecord) (h : ∀ s ∈ scores, scoreMatchesGame m g s = false) :
    verifyLoop m scores [g] =
      ⟨[], [g.team1 ++ vsStr ++ g.team2], [], 0, 0⟩ := by
  simp [verifyLoop, findPair_eq_none h 0]

lemma winnersLoop_single_none (scores : List ScoreRecord) (g : SpreadRecord)
    (h : ∀ s ∈ scores, scoreMatchesGamePlain g s = false) :
    winnersLoop scores [g] = ([], []) := by
  have hn : scores.find? (scoreMatchesGamePlain g) = none :=
    List.find?_eq_none.mpr (fun x hx => by simp [h x hx])
  simp [winnersLoop, hn]

/-- C6: a SpreadRecord whose normalized team pair matches no ScoreRecord
is non-fatal: the Matcher's ordered output and dropped report are exactly
those of the batch without it, it is reported in unmatchedGames, and the
winner calculation likewise produces the same detail rows and declared
winners as the batch without it — every other SpreadRecord is processed
unaffected. -/
theorem unmatchedSpread_nonfatal (m : TeamMap)
    (pre post : List SpreadRecord) (g : SpreadRecord)
    (scores : List ScoreRecord)
    (h1 : ∀ s ∈ scores, scoreMatchesGame m g s = false)
    (h2 : ∀ s ∈ scores, scoreMatchesGamePlain g s = false) :
    (verifyNormalizeScores m (pre ++ g :: post) scores).ordered =
      (verifyNormalizeScores m (pre ++ post) scores).ordered ∧
    (verifyNormalizeScores m (pre ++ g :: post) scores).dropped =
      (verifyNormalizeScores m (pre ++ post) scores).dropped ∧
    (g.team1 ++ vsStr ++ g.team2) ∈
      (verifyNormalizeScores m (pre ++ g :: post) scores).unmatchedGames ∧
    calculateTotalWinners (pre ++ g :: post) scores =
      calculateTotalWinners (pre ++ post) scores := by
  have e : pre ++ g :: post = pre ++ ([g] ++ post) := by simp
  have key : verifyLoop m scores (pre ++ g :: post) =
      ⟨(verifyLoop m scores pre).ordered ++ (verifyLoop m scores post).ordered,
        (verifyLoop m scores pre).unmatchedGames ++
          ((g.team1 ++ vsStr ++ g.team2) ::
            (verifyLoop m scores post).unmatchedGames),
        (verifyLoop m scores pre).used ++ (verifyLoop m scores post).used,
        (verifyLoop m scores pre).matched + (verifyLoop m scores post).matched,
        (verifyLoop m scores pre).swapped +
          (verifyLoop m scores post).swapped⟩ := by
    rw [e, verifyLoop_append, verifyLoop_append,
      verifyLoop_single_none m scores g h1]
    simp
  have key0 := verifyLoop_append m scores pre post
  refine ⟨?_, ?_, ?_, ?_⟩
  · show (verifyLoop m scores (pre ++ g :: post)).ordered =
        (verifyLoop m scores (pre ++ post)).ordered
    simp only [key, key0]
  · show ((scores.enum.filter (fun p =>
        !((verifyLoop m scores (pre ++ g :: post)).used.contains p.1))).map
          (fun p => p.2.team1 ++ vsStr ++ p.2.team2)) =
      ((scores.enum.filter (fun p =>
        !((verifyLoop m scores (pre ++ post)).used.contains p.1))).map
          (fun p => p.2.team1 ++ vsStr ++ p.2.team2))
    simp only [key, key0]
  · show (g.team1 ++ vsStr ++ g.team2) ∈
        (verifyLoop m scores (pre ++ g :: post)).unmatchedGames
    simp only [key]
    exact List.mem_append.mpr (Or.inr (List.mem_cons_self _ _))
  · show winnersLoop scores (pre ++ g :: post) = winnersLoop scores (pre ++ post)
    rw [e, winnersLoop_append, winnersLoop_append,
      winnersLoop_single_none scores g h2, winnersLoop_append scores pre post]
    simp

/-- Witness for C6 at a concrete input: the game Gamma-Delta matches no
score, is reported unmatched, and removing it leaves the ordered output
unchanged. -/
theorem unmatchedSpread_nonfatal_witness :
    (∀ s ∈ ([⟨[], jstr ("Beta"), 3, jstr ("Alpha"), 7⟩] : List ScoreRecord),
        scoreMatchesGame [] ⟨jstr ("Gamma"), 0, jstr ("Delta"), 0⟩ s = false) ∧
    (∀ s ∈ ([⟨[], jstr ("Beta"), 3, jstr ("Alpha"), 7⟩] : List ScoreRecord),
        scoreMatchesGamePlain ⟨jstr ("Gamma"), 0, jstr ("Delta"), 0⟩ s = false) ∧
    ((verifyNormalizeScores []
        ([⟨jstr ("Alpha"), 0, jstr ("Beta"), 0⟩] ++
          ⟨jstr ("Gamma"), 0, jstr ("Delta"), 0⟩ :: [])
        [⟨[], jstr ("Beta"), 3, jstr ("Alpha"), 7⟩]).ordered =
      (verifyNormalizeScores []
        ([⟨jstr ("Alpha"), 0, jstr ("Beta"), 0⟩] ++ [])
        [⟨[], jstr ("Beta"), 3, jstr ("Alpha"), 7⟩]).ordered) ∧
    (jstr ("Gamma") ++ vsStr ++ jstr ("Delta")) ∈
      (verifyNormalizeScores []
        ([⟨jstr ("Alpha"), 0, jstr ("Beta"), 0⟩] ++
          ⟨jstr ("Gamma"), 0, jstr ("Delta"), 0⟩ :: [])
        [⟨[], jstr ("Beta"), 3, jstr ("Alpha"), 7⟩]).unmatchedGames := by
  refine ⟨by decide, by decide, ?_, ?_⟩
  · exact (unmatchedSpread_nonfatal [] [⟨jstr ("Alpha"), 0, jstr ("Beta"), 0⟩]
      [] ⟨jstr ("Gamma"), 0, jstr ("Delta"), 0⟩ _ (by decide) (by decide)).1
  · exact (unmatchedSpread_nonfatal [] [⟨jstr ("Alpha"), 0, jstr ("Beta"), 0⟩]
      [] ⟨jstr ("Gamma"), 0, jstr ("Delta"), 0⟩ _ (by decide) (by decide)).2.2.1

lemma verifyLoop_ordered_length (m : TeamMap) (scores : List ScoreRecord) :
    ∀ games : List SpreadRecord,
      (verifyLoop m scores games).ordered.length ≤ games.length := by
  intro games
  induction games with
  | nil => simp [verifyLoop]
  | cons g rest ih =>
      cases hf : findPair (scoreMatchesGame m g) scores 0 with
      | none =>
          simp only [verifyLoop, hf, List.length_cons]
          omega
      | some pair =>
          cases pair with
          | mk i s =>
              simp only [verifyLoop, hf, List.length_cons]
              omega

lemma mem_verifyLoop_used (m : TeamMap) (scores : List ScoreRecord)
    (i : Nat) :
    ∀ games : List SpreadRecord,
      (i ∈ (verifyLoop m scores games).used ↔
        ∃ g ∈ games,
          (findPair (scoreMatchesGame m g) scores 0).map Prod.fst = some i) := by
  intro games
  induction games with
  | nil => simp [verifyLoop]
  | cons g rest ih =>
      cases hf : findPair (scoreMatchesGame m g) scores 0 with
      | none => simp [verifyLoop, hf, ih]
      | some pair =>
          cases pair with
          | mk j s =>
              simp only [verifyLoop, hf, List.mem_cons, ih]
              constructor
              · rintro (rfl | ⟨g', hg', hsel⟩)
                · exact ⟨g, Or.inl rfl, by simp [hf]⟩
                · exact ⟨g', Or.inr hg', hsel⟩
              · rintro ⟨g', hg' | hg', hsel⟩
                · subst hg'
                  rw [hf] at hsel
                  simp at hsel
                  exact Or.inl hsel.symm
                · exact Or.inr ⟨g', hg', hsel⟩

/-- C7 counterexample: with two SpreadRecords naming the same team pair
and a single matching ScoreRecord, the Matcher emits two ordered rows —
the ScoreRecord, although recorded in the used set after the first match,
is matched again by the later SpreadRecord, so marking a score as
consumed does not stop later matches. -/
theorem verifyNormalizeScores_score_reused :
    (verifyNormalizeScores []
        [⟨jstr ("A"), 0, jstr ("B"), 0⟩, ⟨jstr ("A"), 0, jstr ("B"), 0⟩]
        [⟨[], jstr ("A"), 1, jstr ("B"), 2⟩]).ordered =
      [⟨[], jstr ("A"), 1, jstr ("B"), 2⟩,
        ⟨[], jstr ("A"), 1, jstr ("B"), 2⟩] ∧
    ([⟨[], jstr ("A"), 1, jstr ("B"), 2⟩] : List ScoreRecord).length = 1 := by
  constructor
  · decide
  · rfl

/-- C7 (amended): the used-marking of a matched ScoreRecord feeds only
the dropped report and does not prevent later SpreadRecords from matching
the same ScoreRecord; each SpreadRecord yields at most one ordered row
(the batch never emits more rows than games); when several ScoreRecords
match a SpreadRecord the first in input order wins; and every ScoreRecord
never selected by any SpreadRecord is reported in dropped. -/
theorem verifyNormalizeScores_consumption (m : TeamMap)
    (games : List SpreadRecord) (scores : List ScoreRecord) :
    ((verifyNormalizeScores m games scores).ordered.length ≤ games.length) ∧
    (∀ g : SpreadRecord,
      (verifyNormalizeScores m [g] scores).ordered.length ≤ 1) ∧
    (∀ (g : SpreadRecord) (i : Nat) (s : ScoreRecord),
        findPair (scoreMatchesGame m g) scores 0 = some (i, s) →
        scores.get? i = some s ∧ scoreMatchesGame m g s = true ∧
          ∀ j, j < i → ∀ y, scores.get? j = some y →
            scoreMatchesGame m g y = false) ∧
    (∀ (i : Nat) (s : ScoreRecord), scores.get? i = some s →
        (∀ g ∈ games,
          (findPair (scoreMatchesGame m g) scores 0).map Prod.fst ≠ some i) →
        (s.team1 ++ vsStr ++ s.team2) ∈
          (verifyNormalizeScores m games scores).dropped) ∧
    (verifyNormalizeScores []
        [⟨jstr ("A"), 0, jstr ("B"), 0⟩, ⟨jstr ("A"), 0, jstr ("B"), 0⟩]
        [⟨[], jstr ("A"), 1, jstr ("B"), 2⟩]).ordered.length = 2 := by
  refine ⟨verifyLoop_ordered_length m scores games, ?_, ?_, ?_, by decide⟩
  · intro g
    exact verifyLoop_ordered_length m scores [g]
  · intro g i s hf
    rcases findPair_spec scores 0 i s hf with ⟨hle, hget, hp, hmin⟩
    rw [Nat.sub_zero] at hget hmin
    exact ⟨hget, hp, fun j hj y hy => hmin j hj y hy⟩
  · intro i s hget hnone
    have hused : i ∉ (verifyLoop m scores games).used := by
      rw [mem_verifyLoop_used]
      rintro ⟨g, hg, hsel⟩
      exact hnone g hg hsel
    show (s.team1 ++ vsStr ++ s.team2) ∈
      ((scores.enum.filter (fun p =>
        !((verifyLoop m scores games).used.contains p.1))).map
          (fun p => p.2.team1 ++ vsStr ++ p.2.team2))
    refine List.mem_map.mpr ⟨(i, s), List.mem_filter.mpr
      ⟨List.mk_mem_enum_iff_getElem?.mpr (by simpa using hget), ?_⟩, rfl⟩
    simpa using hused

/-- Witness for C7 (amended) at a concrete input: the second score in the
list matches no game and appears in the dropped report. -/
theorem verifyNormalizeScores_consumption_witness :
    (([⟨[], jstr ("A"), 1, jstr ("B"), 2⟩,
        ⟨[], jstr ("C"), 5, jstr ("D"), 6⟩] : List ScoreRecord).get? 1 =
      some ⟨[], jstr ("C"), 5, jstr ("D"), 6⟩) ∧
    (∀ g ∈ ([⟨jstr ("A"), 0, jstr ("B"), 0⟩] : List SpreadRecord),
        (findPair (scoreMatchesGame [] g)
          [⟨[], jstr ("A"), 1, jstr ("B"), 2⟩,
            ⟨[], jstr ("C"), 5, jstr ("D"), 6⟩] 0).map Prod.fst ≠ some 1) ∧
    (jstr ("C") ++ vsStr ++ jstr ("D")) ∈
      (verifyNormalizeScores [] [⟨jstr ("A"), 0, jstr ("B"), 0⟩]
        [⟨[], jstr ("A"), 1, jstr ("B"), 2⟩,
          ⟨[], jstr ("C"), 5, jstr ("D"), 6⟩]).dropped :=
  ⟨by decide, by decide,
    (verifyNormalizeScores_consumption [] [⟨jstr ("A"), 0, jstr ("B"), 0⟩]
        [⟨[], jstr ("A"), 1, jstr ("B"), 2⟩,
          ⟨[], jstr ("C"), 5, jstr ("D"), 6⟩]).2.2.2.1 1
      ⟨[], jstr ("C"), 5, jstr ("D"), 6⟩ (by decide) (by decide)⟩

lemma verifyLoop_single_matched (m : TeamMap) (scores : List ScoreRecord)
    (g : SpreadRecord) (i : Nat) (s : ScoreRecord)
    (hf : findPair (scoreMatchesGame m g) scores 0 = some (i, s)) :
    (verifyLoop m scores [g]).ordered = [orientScore m g s] := by
  simp [verifyLoop, hf]

/-- C3 counterexample: for the SpreadRecord A vs "A." and the matching
ScoreRecord A vs "A-" (all three names normalize to "a"), the condition
normalize(s.team1) == normalize(g.team1) holds, yet the Matcher swaps the
scores instead of using them as-is, because its swap test
sameTeam(s1,g2) && sameTeam(s2,g1) also fires when the game's two
normalized names coincide. -/
theorem matcher_orientation_counterexample :
    normalizeName (jstr ("A")) = normalizeName (jstr ("A")) ∧
    (verifyNormalizeScores [] [⟨jstr ("A"), 0, jstr ("A."), 0⟩]
        [⟨[], jstr ("A"), 1, jstr ("A-"), 2⟩]).ordered =
      [⟨[], jstr ("A"), 2, jstr ("A."), 1⟩] ∧
    (verifyNormalizeScores [] [⟨jstr ("A"), 0, jstr ("A."), 0⟩]
        [⟨[], jstr ("A"), 1, jstr ("A-"), 2⟩]).ordered ≠
      [⟨[], jstr ("A"), 1, jstr ("A."), 2⟩] := by
  refine ⟨rfl, by decide, by decide⟩

/-- C3 (amended): the Matcher's ordered row for a matched pair carries
the game's team labels with score1 aligned to g.team1; when the score
record's first team normalizes to g.team1 and the game's two normalized
names are distinct the scores are used as-is, and when it does not
normalize to g.team1 the scores are swapped; the spec's Ohio State
round-trip example reorients exactly as stated. -/
theorem matcher_orientation (g : SpreadRecord) (scores : List ScoreRecord)
    (i : Nat) (s : ScoreRecord)
    (hf : findPair (scoreMatchesGame [] g) scores 0 = some (i, s)) :
    (normalizeName s.team1 = normalizeName g.team1 →
      normalizeName g.team1 ≠ normalizeName g.team2 →
      (verifyNormalizeScores [] [g] scores).ordered =
        [⟨s.date, g.team1, s.score1, g.team2, s.score2⟩]) ∧
    (normalizeName s.team1 ≠ normalizeName g.team1 →
      (verifyNormalizeScores [] [g] scores).ordered =
        [⟨s.date, g.team1, s.score2, g.team2, s.score1⟩]) ∧
    (verifyNormalizeScores []
        [⟨jstr ("Ohio State"), -7, jstr ("Michigan"), 7⟩]
        [⟨jstr ("d"), jstr ("Michigan"), 10, jstr ("Ohio St."), 20⟩]).ordered =
      [⟨jstr ("d"), jstr ("Ohio State"), 20, jstr ("Michigan"), 10⟩] := by
  have hp : scoreMatchesGame [] g s = true :=
    (findPair_spec scores 0 i s hf).2.2.1
  have hord : (verifyNormalizeScores [] [g] scores).ordered =
      [orientScore [] g s] := verifyLoop_single_matched [] scores g i s hf
  have hswap_def : needsSwap [] g s =
      (sameTeam s.team1 g.team2 && sameTeam s.team2 g.team1) := by
    unfold needsSwap
    rw [mapToMascot_nil, mapToMascot_nil]
  have hp_def : ((sameTeam s.team1 g.team1 && sameTeam s.team2 g.team2) ||
      (sameTeam s.team1 g.team2 && sameTeam s.team2 g.team1)) = true := by
    have : scoreMatchesGame [] g s =
        ((sameTeam s.team1 g.team1 && sameTeam s.team2 g.team2) ||
          (sameTeam s.team1 g.team2 && sameTeam s.team2 g.team1)) := by
      unfold scoreMatchesGame
      rw [mapToMascot_nil, mapToMascot_nil]
    rw [← this]
    exact hp
  refine ⟨?_, ?_, by decide⟩
  · intro h1 hgg
    have hst : sameTeam s.team1 g.team2 = false := by
      unfold sameTeam
      exact beq_eq_false_iff_ne.mpr (fun hc => hgg (h1 ▸ hc))
    have hns : needsSwap [] g s = false := by
      rw [hswap_def, hst, Bool.false_and]
    rw [hord]
    unfold orientScore
    rw [hns]
    simp
  · intro h1
    have hst : sameTeam s.team1 g.team1 = false := by
      unfold sameTeam
      exact beq_eq_false_iff_ne.mpr h1
    have hns : needsSwap [] g s = true := by
      rw [hswap_def]
      have := hp_def
      rw [hst, Bool.false_and, Bool.false_or] at this
      exact this
    rw [hord]
    unfold orientScore
    rw [hns]
    simp

/-- Witness for C3 (amended) at the spec's round-trip input: the score
record Michigan/Ohio St. is the first match for the Ohio State/Michigan
game, its first team does not normalize to the game's team1, and the
ordered output swaps the scores onto the game's orientation. -/
theorem matcher_orientation_witness :
    (findPair (scoreMatchesGame []
        ⟨jstr ("Ohio State"), -7, jstr ("Michigan"), 7⟩)
        [⟨jstr ("d"), jstr ("Michigan"), 10, jstr ("Ohio St."), 20⟩] 0 =
      some (0, ⟨jstr ("d"), jstr ("Michigan"), 10, jstr ("Ohio St."), 20⟩)) ∧
    normalizeName (jstr ("Michigan")) ≠ normalizeName (jstr ("Ohio State")) ∧
    (verifyNormalizeScores []
        [⟨jstr ("Ohio State"), -7, jstr ("Michigan"), 7⟩]
        [⟨jstr ("d"), jstr ("Michigan"), 10, jstr ("Ohio St."), 20⟩]).ordered =
      [⟨jstr ("d"), jstr ("Ohio State"), 20, jstr ("Michigan"), 10⟩] :=
  ⟨by decide, by decide,
    (matcher_orientation ⟨jstr ("Ohio State"), -7, jstr ("Michigan"), 7⟩
        [⟨jstr ("d"), jstr ("Michigan"), 10, jstr ("Ohio St."), 20⟩] 0
        ⟨jstr ("d"), jstr ("Michigan"), 10, jstr ("Ohio St."), 20⟩
        (by decide)).2.1 (by decide)⟩

/-- One element of the request body's picks array; a missing or
non-numeric gameIndex (JS `Number(...)` yielding NaN) is `none`, and a
missing pick string (JS `p.pick || ''`) is the empty string. -/
structure RawPickInput where
  gameIndex : Option Int
  pick : JStr
deriving DecidableEq

/-- The picks normalization of the submit routes (1014-1019): map to
`{gameIndex: Number, pick: trimmed}` then keep entries with a finite
index and a nonempty pick. -/
def normalizePicks (l : List RawPickInput) : List StoredPick :=
  l.filterMap (fun p =>
    match p.gameIndex, trimStr p.pick with
    | some gi, pk => if pk = [] then none else some ⟨gi, pk⟩
    | none, _ => none)

/-- server.js POST /submit-picks/:week (995-1064) after week parsing: the
returned HTTP status and the resulting picks-file contents.  Input
validation returns 400 leaving the file unchanged; a duplicate player
name (trimmed, compared case-insensitively) returns 409 leaving the file
unchanged; otherwise the entry is appended and 200 (res.json) returned. -/
def submitPicks (existing : List PickFileEntry) (week : Nat)
    (rawName rawPin : JStr) (picksIn : Option (List RawPickInput))
    (now : JStr) : Nat × List PickFileEntry :=
  let name := trimStr rawName
  let pin := trimStr rawPin
  if name = [] ∨ pin = [] ∨ picksIn = none then (400, existing)
  else
    let picks := normalizePicks (picksIn.getD [])
    if picks.length = 0 then (400, existing)
    else if picks.length > 10 then (400, existing)
    else if existing.any
        (fun e => lowerStr (trimStr e.player) == lowerStr name) then
      (409, existing)
    else (200, existing ++ [⟨name, pin, picks, week, now⟩])

/-- C9: a valid submission whose trimmed player name already appears
(case-insensitively) among the stored entries is rejected with status 409
and the picks file is left exactly as it was; a valid submission from a
new player is appended as one new entry with every previously stored
entry preserved. -/
theorem submitPicks_duplicate_handling (existing : List PickFileEntry)
    (week : Nat) (rawName rawPin : JStr) (pl : List RawPickInput)
    (now : JStr)
    (hname : trimStr rawName ≠ []) (hpin : trimStr rawPin ≠ [])
    (hcnt : (normalizePicks pl).length ≠ 0)
    (hmax : ¬ (normalizePicks pl).length > 10) :
    ((∃ e ∈ existing,
        lowerStr (trimStr e.player) = lowerStr (trimStr rawName)) →
      submitPicks existing week rawName rawPin (some pl) now =
        (409, existing)) ∧
    ((∀ e ∈ existing,
        lowerStr (trimStr e.player) ≠ lowerStr (trimStr rawName)) →
      submitPicks existing week rawName rawPin (some pl) now =
        (200, existing ++ [⟨trimStr rawName, trimStr rawPin,
          normalizePicks pl, week, now⟩])) := by
  constructor
  · rintro ⟨e, he, heq⟩
    have hany : existing.any
        (fun e => lowerStr (trimStr e.player) ==
          lowerStr (trimStr rawName)) = true :=
      List.any_eq_true.mpr ⟨e, he, beq_iff_eq.mpr heq⟩
    unfold submitPicks
    rw [if_neg (by simp [hname, hpin])]
    simp only [Option.getD_some]
    rw [if_neg hcnt, if_neg hmax, if_pos hany]
  · intro hall
    have hany : existing.any
        (fun e => lowerStr (trimStr e.player) ==
          lowerStr (trimStr rawName)) = false := by
      rw [← Bool.not_eq_true, List.any_eq_true]
      rintro ⟨e, he, heq⟩
      exact hall e he (beq_iff_eq.mp heq)
    unfold submitPicks
    rw [if_neg (by simp [hname, hpin])]
    simp only [Option.getD_some]
    rw [if_neg hcnt, if_neg hmax, if_neg (by simp [hany])]

/-- Witness for C9 at concrete inputs: the stored entry " Alice " blocks
a new submission by "ALICE" with status 409 and an unchanged file, while
"Bob" is appended after the stored entry. -/
theorem submitPicks_duplicate_handling_witness :
    (∃ e ∈ ([⟨jstr (" Alice "), jstr ("1111"), [⟨0, jstr ("X")⟩], 2,
        jstr ("t")⟩] : List PickFileEntry),
      lowerStr (trimStr e.player) = lowerStr (trimStr (jstr ("ALICE")))) ∧
    submitPicks [⟨jstr (" Alice "), jstr ("1111"), [⟨0, jstr ("X")⟩], 2,
        jstr ("t")⟩] 2 (jstr ("ALICE")) (jstr ("9999"))
      (some [⟨some 0, jstr ("X")⟩]) (jstr ("t2")) =
      (409, [⟨jstr (" Alice "), jstr ("1111"), [⟨0, jstr ("X")⟩], 2,
        jstr ("t")⟩]) ∧
    submitPicks [⟨jstr (" Alice "), jstr ("1111"), [⟨0, jstr ("X")⟩], 2,
        jstr ("t")⟩] 2 (jstr ("Bob")) (jstr ("9999"))
      (some [⟨some 0, jstr ("X")⟩]) (jstr ("t2")) =
      (200, [⟨jstr (" Alice "), jstr ("1111"), [⟨0, jstr ("X")⟩], 2,
          jstr ("t")⟩,
        ⟨jstr ("Bob"), jstr ("9999"), [⟨0, jstr ("X")⟩], 2, jstr ("t2")⟩]) := by
  refine ⟨by decide, ?_, ?_⟩
  · exact (submitPicks_duplicate_handling _ 2 (jstr ("ALICE"))
      (jstr ("9999")) [⟨some 0, jstr ("X")⟩] (jstr ("t2"))
      (by decide) (by decide) (by decide) (by decide)).1 (by decide)
  · exact (submitPicks_duplicate_handling _ 2 (jstr ("Bob"))
      (jstr ("9999")) [⟨some 0, jstr ("X")⟩] (jstr ("t2"))
      (by decide) (by decide) (by decide) (by decide)).2 (by decide)

/-- One games row as the older variant's calculateWinners reads it
(unnamed/part_001, 255-256); `none` models a missing or non-numeric
spread field, for which `parseFloat(...)` yields NaN. -/
structure RawGame where
  spread1 : Option Rat
  spread2 : Option Rat

/-- One scores row of the older variant (part_001, 251-254), keyed
"Team 1"/"Score 1"/"Team 2"/"Score 2"; `none` models a missing field
(`parseInt` NaN, or an absent team name). -/
structure RawScoreRow where
  team1 : Option JStr
  score1 : Option Int
  team2 : Option JStr
  score2 : Option Int

/-- One pick of the older variant (part_001, 245-246). -/
structure RawPick001 where
  gameIndex : Option Nat
  pick : Option JStr

/-- The silent coercion `parseFloat(game.spread1) || 0` (part_001, 255):
a missing or non-numeric spread becomes 0. -/
def coerceSpread (x : Option Rat) : Rat := x.getD 0

/-- The per-pick evaluation of the older variant's calculateWinners
(part_001, 244-263): look up game and score row by index, coerce the
spreads, add each spread to the corresponding raw score (NaN propagating
as `none`), declare the winner by comparison (null on NaN or tie), and
count the pick when the trimmed picked name strictly equals the winner. -/
def pickCorrect (games : List RawGame) (scores : List RawScoreRow)
    (pk : RawPick001) : Bool :=
  match pk.gameIndex with
  | none => false
  | some gi =>
    match games.get? gi, scores.get? gi with
    | some game, some score =>
      let spread1 := coerceSpread game.spread1
      let spread2 := coerceSpread game.spread2
      let t1f : Option Rat := score.score1.map (fun a => (a : Rat) + spread1)
      let t2f : Option Rat := score.score2.map (fun a => (a : Rat) + spread2)
      let winner : Option JStr :=
        match t1f, t2f with
        | some a, some b =>
            if a > b then score.team1.map trimStr
            else if b > a then score.team2.map trimStr
            else none
        | _, _ => none
      match pk.pick.map trimStr, winner with
      | some p, some w => p == w
      | _, _ => false
    | _, _ => false

/-- C8 evidence: a games row whose spread fields are entirely missing is
not rejected or excluded — both spreads are silently coerced to 0, a
winner is declared from the raw scores alone, and the pick is counted
correct; with the spreads actually present (-15/15) the same pick is not
correct, so the coercion to zero decided the outcome. -/
theorem pickCorrect_coerces_missing_spread :
    pickCorrect [⟨none, none⟩]
      [⟨some (jstr ("A")), some 20, some (jstr ("B")), some 10⟩]
      ⟨some 0, some (jstr ("A"))⟩ = true ∧
    pickCorrect [⟨some (-15), some 15⟩]
      [⟨some (jstr ("A")), some 20, some (jstr ("B")), some 10⟩]
      ⟨some 0, some (jstr ("A"))⟩ = false := by
  constructor
  · norm_num [pickCorrect, coerceSpread]
    try decide
  · norm_num [pickCorrect, coerceSpread]
    try decide
